import Mathlib

/-!
Verification development for the GraphRAG conversational-memory core.

The Python source is embedded shallowly:
* floats become exact rationals (`ℚ`), with Python's `round(x, 3)` modelled
  by `round3`;
* Python sets become `Finset String`, lists become `List String`;
* Python dicts of weights become association lists, with `dict[k]` access
  modelled as an `Option`-returning lookup (a missing key, which raises
  `KeyError` in Python, becomes `none`);
* the Neo4j-backed store becomes an explicit state record, with the store's
  documented upsert/create effects as pure state transformers;
* a Python function that can raise becomes `Except`/`Option`-valued.
-/

/-- Result shape of the extraction contract
`extract(text) -> {"entities": [...], "topics": [...]}`
(see `backend/rag/extractor.py`: both fields are plain lists). -/
structure Extraction where
  entities : List String
  topics : List String
deriving Repr, DecidableEq

/-- Python's `round(x, 3)` (round to 3 decimal places), on the rational
embedding of floats. -/
def round3 (x : ℚ) : ℚ :=
  (round (x * 1000) : ℤ) / 1000

/-- Score record produced by `CRSEvaluator.evaluate`
(`backend/evaluation/crs_evaluator.py`, class `CRSScores`). -/
structure CRSScores where
  context_recall : ℚ
  context_precision : ℚ
  temporal_stability : ℚ
  dependency_resolution : ℚ
  context_decay_resistance : ℚ
  composite_score : ℚ
  query_entities : List String
  response_entities : List String
  context_entities : List String
  query_topics : List String
  response_topics : List String
  context_topics : List String
deriving Repr, DecidableEq

/-- `crs_evaluator.py` lines 69-72: `if not c_ents: recall = 1.0 else
len(r_ents & c_ents) / len(c_ents)`. -/
def contextRecall (rEnts cEnts : Finset String) : ℚ :=
  if cEnts = ∅ then 1 else ((rEnts ∩ cEnts).card : ℚ) / cEnts.card

/-- `crs_evaluator.py` lines 75-78: `if not r_ents: precision = 1.0 else
len(r_ents & c_ents) / len(r_ents)`. -/
def contextPrecision (rEnts cEnts : Finset String) : ℚ :=
  if rEnts = ∅ then 1 else ((rEnts ∩ cEnts).card : ℚ) / rEnts.card

/-- `crs_evaluator.py` lines 81-85: `if not q_ents: dep_res = 1.0 else
len(r_ents & q_ents) / len(q_ents)`. -/
def dependencyResolution (rEnts qEnts : Finset String) : ℚ :=
  if qEnts = ∅ then 1 else ((rEnts ∩ qEnts).card : ℚ) / qEnts.card

/-- `crs_evaluator.py` lines 89-95: Jaccard similarity between the response
topics and `target_topics = q_topics | c_topics`, with the two emptiness
special cases in the source's order (`if not target and not r then 1.0
elif not target or not r then 0.0`). -/
def temporalStability (rTopics targetTopics : Finset String) : ℚ :=
  if targetTopics = ∅ ∧ rTopics = ∅ then 1
  else if targetTopics = ∅ ∨ rTopics = ∅ then 0
  else ((rTopics ∩ targetTopics).card : ℚ) / (rTopics ∪ targetTopics).card

/-- A Python weights dict, embedded as an association list
(a well-typed dict has pairwise-distinct keys). -/
abbrev Weights := List (String × ℚ)

/-- The default weight dict from `CRSEvaluator.__init__`
(`crs_evaluator.py` lines 33-39). -/
def defaultWeights : Weights :=
  [("context_recall", 3/10),
   ("context_precision", 2/10),
   ("temporal_stability", 2/10),
   ("dependency_resolution", 2/10),
   ("context_decay_resistance", 1/10)]

/-- `CRSEvaluator.__init__`: `self.weights = weights or {...}`.
In Python, `weights or default` yields the default both when `weights` is
`None` and when it is an empty (falsy) dict. -/
def crsInit (weights : Option Weights) : Weights :=
  match weights with
  | none => defaultWeights
  | some w => if w.isEmpty then defaultWeights else w

/-- Python dict subscript `w[k]`, as an `Option`: `none` models the
`KeyError` raised when the key is absent. -/
def dictGet (w : Weights) (k : String) : Option ℚ :=
  (w.find? (fun p => p.1 == k)).map Prod.snd

/-- `CRSEvaluator.evaluate` (`crs_evaluator.py` lines 41-124).
The three extraction calls are `extract queryText` etc.; entity/topic lists
are converted to sets exactly as `set(ext.get("entities", []))` is; the five
weight lookups `self.weights["..."]` happen in the composite expression, so a
missing key makes the whole call fail (`none`). -/
def crsEvaluate (weights : Weights) (extract : String → Extraction)
    (queryText responseText contextText : String) : Option CRSScores :=
  let qExt := extract queryText
  let rExt := extract responseText
  let cExt := extract contextText
  let qEnts := qExt.entities.toFinset
  let rEnts := rExt.entities.toFinset
  let cEnts := cExt.entities.toFinset
  let qTopics := qExt.topics.toFinset
  let rTopics := rExt.topics.toFinset
  let cTopics := cExt.topics.toFinset
  let mRecall := contextRecall rEnts cEnts
  let mPrecision := contextPrecision rEnts cEnts
  let mDepRes := dependencyResolution rEnts qEnts
  let mStability := temporalStability rTopics (qTopics ∪ cTopics)
  let mDecay : ℚ := 1
  match dictGet weights "context_recall", dictGet weights "context_precision",
      dictGet weights "temporal_stability", dictGet weights "dependency_resolution",
      dictGet weights "context_decay_resistance" with
  | some wRecall, some wPrecision, some wStability, some wDepRes, some wDecay =>
    let composite := mRecall * wRecall + mPrecision * wPrecision
      + mStability * wStability + mDepRes * wDepRes + mDecay * wDecay
    some
      { context_recall := round3 mRecall
        context_precision := round3 mPrecision
        temporal_stability := round3 mStability
        dependency_resolution := round3 mDepRes
        context_decay_resistance := round3 mDecay
        composite_score := round3 composite
        query_entities := qExt.entities.dedup
        response_entities := rExt.entities.dedup
        context_entities := cExt.entities.dedup
        query_topics := qExt.topics.dedup
        response_topics := rExt.topics.dedup
        context_topics := cExt.topics.dedup }
  | _, _, _, _, _ => none

/-- Extraction stub returning empty lists, used to instantiate theorems at
concrete inputs. -/
def emptyExtract : String → Extraction :=
  fun _ => { entities := [], topics := [] }

/-- With the default weight dict every weight lookup succeeds, and the
score record is the one computed from the three extractions. -/
theorem crsEvaluate_defaultWeights (extract : String → Extraction)
    (q r c : String) :
    crsEvaluate defaultWeights extract q r c =
      some
        { context_recall :=
            round3 (contextRecall (extract r).entities.toFinset (extract c).entities.toFinset)
          context_precision :=
            round3 (contextPrecision (extract r).entities.toFinset (extract c).entities.toFinset)
          temporal_stability :=
            round3 (temporalStability (extract r).topics.toFinset
              ((extract q).topics.toFinset ∪ (extract c).topics.toFinset))
          dependency_resolution :=
            round3 (dependencyResolution (extract r).entities.toFinset (extract q).entities.toFinset)
          context_decay_resistance := round3 1
          composite_score :=
            round3 (contextRecall (extract r).entities.toFinset (extract c).entities.toFinset * (3/10)
              + contextPrecision (extract r).entities.toFinset (extract c).entities.toFinset * (2/10)
              + temporalStability (extract r).topics.toFinset
                  ((extract q).topics.toFinset ∪ (extract c).topics.toFinset) * (2/10)
              + dependencyResolution (extract r).entities.toFinset (extract q).entities.toFinset * (2/10)
              + 1 * (1/10))
          query_entities := (extract q).entities.dedup
          response_entities := (extract r).entities.dedup
          context_entities := (extract c).entities.dedup
          query_topics := (extract q).topics.dedup
          response_topics := (extract r).topics.dedup
          context_topics := (extract c).topics.dedup } := by
  rfl

theorem round3_one : round3 1 = 1 := by
  norm_num [round3]

theorem round3_zero : round3 0 = 0 := by
  norm_num [round3]

theorem round3_round3 (x : ℚ) : round3 (round3 x) = round3 x := by
  unfold round3
  rw [div_mul_cancel₀ _ (by norm_num : (1000 : ℚ) ≠ 0), round_intCast]

theorem abs_round3_sub (x : ℚ) : |round3 x - x| ≤ 1 / 2000 := by
  have h : |x * 1000 - (round (x * 1000) : ℚ)| ≤ 1 / 2 := abs_sub_round (x * 1000)
  have hx : round3 x - x = -((x * 1000 - (round (x * 1000) : ℚ)) / 1000) := by
    unfold round3; ring
  rw [hx, abs_neg, abs_div, abs_of_pos (show (0:ℚ) < 1000 by norm_num)]
  linarith

/-- Inversion principle for a successful `crsEvaluate` call: all five weight
lookups succeeded and the record is the one computed by the source. -/
theorem crsEvaluate_some_elim (w : Weights) (extract : String → Extraction)
    (q r c : String) (rec : CRSScores)
    (h : crsEvaluate w extract q r c = some rec) :
    ∃ w1 w2 w3 w4 w5 : ℚ,
      dictGet w "context_recall" = some w1 ∧
      dictGet w "context_precision" = some w2 ∧
      dictGet w "temporal_stability" = some w3 ∧
      dictGet w "dependency_resolution" = some w4 ∧
      dictGet w "context_decay_resistance" = some w5 ∧
      rec =
        { context_recall :=
            round3 (contextRecall (extract r).entities.toFinset (extract c).entities.toFinset)
          context_precision :=
            round3 (contextPrecision (extract r).entities.toFinset (extract c).entities.toFinset)
          temporal_stability :=
            round3 (temporalStability (extract r).topics.toFinset
              ((extract q).topics.toFinset ∪ (extract c).topics.toFinset))
          dependency_resolution :=
            round3 (dependencyResolution (extract r).entities.toFinset (extract q).entities.toFinset)
          context_decay_resistance := round3 1
          composite_score :=
            round3 (contextRecall (extract r).entities.toFinset (extract c).entities.toFinset * w1
              + contextPrecision (extract r).entities.toFinset (extract c).entities.toFinset * w2
              + temporalStability (extract r).topics.toFinset
                  ((extract q).topics.toFinset ∪ (extract c).topics.toFinset) * w3
              + dependencyResolution (extract r).entities.toFinset (extract q).entities.toFinset * w4
              + 1 * w5)
          query_entities := (extract q).entities.dedup
          response_entities := (extract r).entities.dedup
          context_entities := (extract c).entities.dedup
          query_topics := (extract q).topics.dedup
          response_topics := (extract r).topics.dedup
          context_topics := (extract c).topics.dedup } := by
  unfold crsEvaluate at h
  split at h
  next w1 w2 w3 w4 w5 h1 h2 h3 h4 h5 =>
    exact ⟨w1, w2, w3, w4, w5, h1, h2, h3, h4, h5, (Option.some.inj h).symm⟩
  next => simp at h

/-- C9: for all topic sets Rt, Qt, Ct, the temporal_stability metric is
symmetric: evaluating with the response topic set Rt and the combined set
Qt ∪ Ct swapped yields the same temporal_stability value (Jaccard symmetry,
including the empty-set special cases). -/
theorem temporalStability_symm (rt qt ct : Finset String) :
    temporalStability rt (qt ∪ ct) = temporalStability (qt ∪ ct) rt := by
  unfold temporalStability
  rcases eq_or_ne (qt ∪ ct) ∅ with h1 | h1 <;> rcases eq_or_ne rt ∅ with h2 | h2 <;>
    simp [h1, h2, Finset.inter_comm, Finset.union_comm]

/-- C10: constructing the evaluator with an empty weights dict silently falls
back to the default weights {recall 0.3, precision 0.2, stability 0.2,
dependency 0.2, decay 0.1}, exactly as if no weights had been supplied, so
`evaluate` behaves identically in the two cases. -/
theorem crsInit_emptyDict_eq_default :
    crsInit (some []) = crsInit none ∧
    crsInit none =
      [("context_recall", 3/10),
       ("context_precision", 2/10),
       ("temporal_stability", 2/10),
       ("dependency_resolution", 2/10),
       ("context_decay_resistance", 1/10)] ∧
    ∀ (extract : String → Extraction) (q r c : String),
      crsEvaluate (crsInit (some [])) extract q r c =
        crsEvaluate (crsInit none) extract q r c :=
  ⟨rfl, rfl, fun _ _ _ _ => rfl⟩

/-- C5: whenever `evaluate` returns a record, the record obeys the explicit
zero-denominator policy: context_recall = 1.0 when the context entity set is
empty; context_precision = 1.0 when the response entity set is empty;
dependency_resolution = 1.0 when the query entity set is empty;
temporal_stability = 1.0 when both topic sides are empty and 0.0 when exactly
one of the two sides is empty. -/
theorem crsEvaluate_zero_denominator_policy (w : Weights)
    (extract : String → Extraction) (q r c : String) (rec : CRSScores)
    (h : crsEvaluate w extract q r c = some rec) :
    ((extract c).entities.toFinset = ∅ → rec.context_recall = 1) ∧
    ((extract r).entities.toFinset = ∅ → rec.context_precision = 1) ∧
    ((extract q).entities.toFinset = ∅ → rec.dependency_resolution = 1) ∧
    ((extract r).topics.toFinset = ∅ ∧
        (extract q).topics.toFinset ∪ (extract c).topics.toFinset = ∅ →
      rec.temporal_stability = 1) ∧
    (((extract r).topics.toFinset = ∅ ∧
          (extract q).topics.toFinset ∪ (extract c).topics.toFinset ≠ ∅) ∨
        ((extract r).topics.toFinset ≠ ∅ ∧
          (extract q).topics.toFinset ∪ (extract c).topics.toFinset = ∅) →
      rec.temporal_stability = 0) := by
  obtain ⟨w1, w2, w3, w4, w5, _, _, _, _, _, hrec⟩ :=
    crsEvaluate_some_elim w extract q r c rec h
  subst hrec
  refine ⟨fun hc => ?_, fun hr => ?_, fun hq => ?_, fun hb => ?_, fun hx => ?_⟩
  · simp only [contextRecall, hc, if_pos rfl]
    exact round3_one
  · simp only [contextPrecision, hr, if_pos rfl]
    exact round3_one
  · simp only [dependencyResolution, hq, if_pos rfl]
    exact round3_one
  · simp only [temporalStability, hb.1, hb.2, if_pos (And.intro rfl rfl)]
    exact round3_one
  · rcases hx with ⟨hr, ht⟩ | ⟨hr, ht⟩ <;>
      · simp only [temporalStability]
        rw [if_neg (by tauto), if_pos (by tauto)]
        exact round3_zero

/-- Witness for C5: the zero-denominator policy instantiated at the default
evaluator with an extractor that finds nothing. -/
theorem crsEvaluate_zero_denominator_policy_witness :
    ∃ rec : CRSScores,
      crsEvaluate defaultWeights emptyExtract ("q") ("r") ("c") = some rec ∧
      rec.context_recall = 1 ∧ rec.context_precision = 1 ∧
      rec.dependency_resolution = 1 ∧ rec.temporal_stability = 1 := by
  refine ⟨_, crsEvaluate_defaultWeights emptyExtract ("q") ("r") ("c"), ?_⟩
  have h := crsEvaluate_zero_denominator_policy defaultWeights emptyExtract
    ("q") ("r") ("c") _ (crsEvaluate_defaultWeights emptyExtract ("q") ("r") ("c"))
  exact ⟨h.1 (by decide), h.2.1 (by decide), h.2.2.1 (by decide),
    h.2.2.2.1 (by decide)⟩

/-- C8 counterexample: a well-typed, non-empty weights dict that lacks the
five metric keys makes `evaluate` fail (Python raises `KeyError` at the
composite computation), so "evaluate returns a score record for every
well-typed weights dictionary" is false. -/
theorem crsEvaluate_missing_key_fails :
    crsEvaluate (crsInit (some [(("some_other_key"), 1)])) emptyExtract
      ("q") ("r") ("c") = none := rfl

/-- C8 (amended): `evaluate` returns a score record (never raises) for every
weights mapping whose five metric keys are all present after construction —
in particular for the default fallback taken when the supplied dict is `None`
or empty. -/
theorem crsEvaluate_total_of_keys (w : Option Weights)
    (extract : String → Extraction) (q r c : String)
    (h1 : (dictGet (crsInit w) "context_recall").isSome = true)
    (h2 : (dictGet (crsInit w) "context_precision").isSome = true)
    (h3 : (dictGet (crsInit w) "temporal_stability").isSome = true)
    (h4 : (dictGet (crsInit w) "dependency_resolution").isSome = true)
    (h5 : (dictGet (crsInit w) "context_decay_resistance").isSome = true) :
    (crsEvaluate (crsInit w) extract q r c).isSome = true := by
  obtain ⟨w1, hw1⟩ := Option.isSome_iff_exists.mp h1
  obtain ⟨w2, hw2⟩ := Option.isSome_iff_exists.mp h2
  obtain ⟨w3, hw3⟩ := Option.isSome_iff_exists.mp h3
  obtain ⟨w4, hw4⟩ := Option.isSome_iff_exists.mp h4
  obtain ⟨w5, hw5⟩ := Option.isSome_iff_exists.mp h5
  unfold crsEvaluate
  rw [hw1, hw2, hw3, hw4, hw5]
  rfl

/-- Witness for the amended C8 at the default construction (weights absent). -/
theorem crsEvaluate_total_of_keys_witness :
    (dictGet (crsInit none) "context_recall").isSome = true ∧
    (dictGet (crsInit none) "context_precision").isSome = true ∧
    (dictGet (crsInit none) "temporal_stability").isSome = true ∧
    (dictGet (crsInit none) "dependency_resolution").isSome = true ∧
    (dictGet (crsInit none) "context_decay_resistance").isSome = true ∧
    (crsEvaluate (crsInit none) emptyExtract ("q") ("r") ("c")).isSome = true :=
  ⟨rfl, rfl, rfl, rfl, rfl,
    crsEvaluate_total_of_keys none emptyExtract ("q") ("r") ("c")
      rfl rfl rfl rfl rfl⟩

/-- C4: for every input triple and every weight configuration whose five
weights sum to 1, the returned composite_score equals the weighted sum of the
five rounded sub-metrics within rounding tolerance — at most
(1 + Σ|wᵢ|)/2000, hence at most 1/1000 = half an ulp of the 3-decimal grid on
each side when the weights are nonnegative — and every returned float (the
five sub-metrics and the composite) is rounded to 3 decimal places
(round3-idempotent). -/
theorem crsEvaluate_composite_weighted_sum (w : Weights) (w1 w2 w3 w4 w5 : ℚ)
    (extract : String → Extraction) (q r c : String) (rec : CRSScores)
    (hw1 : dictGet w "context_recall" = some w1)
    (hw2 : dictGet w "context_precision" = some w2)
    (hw3 : dictGet w "temporal_stability" = some w3)
    (hw4 : dictGet w "dependency_resolution" = some w4)
    (hw5 : dictGet w "context_decay_resistance" = some w5)
    (h : crsEvaluate w extract q r c = some rec)
    (hsum : w1 + w2 + w3 + w4 + w5 = 1) :
    (round3 rec.context_recall = rec.context_recall ∧
     round3 rec.context_precision = rec.context_precision ∧
     round3 rec.temporal_stability = rec.temporal_stability ∧
     round3 rec.dependency_resolution = rec.dependency_resolution ∧
     round3 rec.context_decay_resistance = rec.context_decay_resistance ∧
     round3 rec.composite_score = rec.composite_score) ∧
    |rec.composite_score -
        (rec.context_recall * w1 + rec.context_precision * w2 +
         rec.temporal_stability * w3 + rec.dependency_resolution * w4 +
         rec.context_decay_resistance * w5)| ≤
      (1 + (|w1| + |w2| + |w3| + |w4| + |w5|)) / 2000 ∧
    (0 ≤ w1 → 0 ≤ w2 → 0 ≤ w3 → 0 ≤ w4 → 0 ≤ w5 →
      |rec.composite_score -
          (rec.context_recall * w1 + rec.context_precision * w2 +
           rec.temporal_stability * w3 + rec.dependency_resolution * w4 +
           rec.context_decay_resistance * w5)| ≤ 1 / 1000) := by
  obtain ⟨v1, v2, v3, v4, v5, hv1, hv2, hv3, hv4, hv5, hrec⟩ :=
    crsEvaluate_some_elim w extract q r c rec h
  rw [hw1] at hv1; rw [hw2] at hv2; rw [hw3] at hv3
  rw [hw4] at hv4; rw [hw5] at hv5
  obtain rfl : w1 = v1 := Option.some.inj hv1
  obtain rfl : w2 = v2 := Option.some.inj hv2
  obtain rfl : w3 = v3 := Option.some.inj hv3
  obtain rfl : w4 = v4 := Option.some.inj hv4
  obtain rfl : w5 = v5 := Option.some.inj hv5
  subst hrec
  dsimp only
  set m1 := contextRecall (extract r).entities.toFinset (extract c).entities.toFinset with hm1
  set m2 := contextPrecision (extract r).entities.toFinset (extract c).entities.toFinset with hm2
  set m3 := temporalStability (extract r).topics.toFinset
    ((extract q).topics.toFinset ∪ (extract c).topics.toFinset) with hm3
  set m4 := dependencyResolution (extract r).entities.toFinset (extract q).entities.toFinset
    with hm4
  have hd0 := abs_round3_sub (m1 * w1 + m2 * w2 + m3 * w3 + m4 * w4 + 1 * w5)
  have hd1 := abs_round3_sub m1
  have hd2 := abs_round3_sub m2
  have hd3 := abs_round3_sub m3
  have hd4 := abs_round3_sub m4
  have hd5 := abs_round3_sub (1 : ℚ)
  have he1 : |(round3 m1 - m1) * w1| ≤ 1 / 2000 * |w1| := by
    rw [abs_mul]; exact mul_le_mul_of_nonneg_right hd1 (abs_nonneg _)
  have he2 : |(round3 m2 - m2) * w2| ≤ 1 / 2000 * |w2| := by
    rw [abs_mul]; exact mul_le_mul_of_nonneg_right hd2 (abs_nonneg _)
  have he3 : |(round3 m3 - m3) * w3| ≤ 1 / 2000 * |w3| := by
    rw [abs_mul]; exact mul_le_mul_of_nonneg_right hd3 (abs_nonneg _)
  have he4 : |(round3 m4 - m4) * w4| ≤ 1 / 2000 * |w4| := by
    rw [abs_mul]; exact mul_le_mul_of_nonneg_right hd4 (abs_nonneg _)
  have he5 : |(round3 (1:ℚ) - 1) * w5| ≤ 1 / 2000 * |w5| := by
    rw [abs_mul]; exact mul_le_mul_of_nonneg_right hd5 (abs_nonneg _)
  have hbound :
      |round3 (m1 * w1 + m2 * w2 + m3 * w3 + m4 * w4 + 1 * w5) -
          (round3 m1 * w1 + round3 m2 * w2 + round3 m3 * w3 + round3 m4 * w4 +
            round3 1 * w5)| ≤
        (1 + (|w1| + |w2| + |w3| + |w4| + |w5|)) / 2000 := by
    have key :
        round3 (m1 * w1 + m2 * w2 + m3 * w3 + m4 * w4 + 1 * w5) -
            (round3 m1 * w1 + round3 m2 * w2 + round3 m3 * w3 + round3 m4 * w4 +
              round3 1 * w5) =
          (round3 (m1 * w1 + m2 * w2 + m3 * w3 + m4 * w4 + 1 * w5) -
              (m1 * w1 + m2 * w2 + m3 * w3 + m4 * w4 + 1 * w5)) -
            ((round3 m1 - m1) * w1 + (round3 m2 - m2) * w2 + (round3 m3 - m3) * w3 +
              (round3 m4 - m4) * w4 + (round3 (1:ℚ) - 1) * w5) := by
      ring
    rw [key]
    have t0 := abs_sub
      (round3 (m1 * w1 + m2 * w2 + m3 * w3 + m4 * w4 + 1 * w5) -
        (m1 * w1 + m2 * w2 + m3 * w3 + m4 * w4 + 1 * w5))
      ((round3 m1 - m1) * w1 + (round3 m2 - m2) * w2 + (round3 m3 - m3) * w3 +
        (round3 m4 - m4) * w4 + (round3 (1:ℚ) - 1) * w5)
    have t1 := abs_add ((round3 m1 - m1) * w1) ((round3 m2 - m2) * w2)
    have t2 := abs_add ((round3 m1 - m1) * w1 + (round3 m2 - m2) * w2)
      ((round3 m3 - m3) * w3)
    have t3 := abs_add
      ((round3 m1 - m1) * w1 + (round3 m2 - m2) * w2 + (round3 m3 - m3) * w3)
      ((round3 m4 - m4) * w4)
    have t4 := abs_add
      ((round3 m1 - m1) * w1 + (round3 m2 - m2) * w2 + (round3 m3 - m3) * w3 +
        (round3 m4 - m4) * w4)
      ((round3 (1:ℚ) - 1) * w5)
    linarith
  refine ⟨⟨round3_round3 _, round3_round3 _, round3_round3 _, round3_round3 _,
      round3_round3 _, round3_round3 _⟩, hbound, fun p1 p2 p3 p4 p5 => ?_⟩
  rw [abs_of_nonneg p1, abs_of_nonneg p2, abs_of_nonneg p3, abs_of_nonneg p4,
    abs_of_nonneg p5] at hbound
  have : (1 + (w1 + w2 + w3 + w4 + w5)) / 2000 = 1 / 1000 := by
    rw [hsum]; norm_num
  rw [this] at hbound
  exact hbound

/-- Witness for C4 at the default weight configuration (which sums to 1) and
an extractor that finds nothing. -/
theorem crsEvaluate_composite_weighted_sum_witness :
    ((3:ℚ)/10 + 2/10 + 2/10 + 2/10 + 1/10) = 1 ∧
    ∃ rec : CRSScores,
      crsEvaluate defaultWeights emptyExtract ("q") ("r") ("c") = some rec ∧
      |rec.composite_score -
          (rec.context_recall * (3/10) + rec.context_precision * (2/10) +
           rec.temporal_stability * (2/10) + rec.dependency_resolution * (2/10) +
           rec.context_decay_resistance * (1/10))| ≤
        (1 + (|(3:ℚ)/10| + |(2:ℚ)/10| + |(2:ℚ)/10| + |(2:ℚ)/10| + |(1:ℚ)/10|)) / 2000 := by
  refine ⟨by norm_num, _, crsEvaluate_defaultWeights emptyExtract ("q") ("r") ("c"), ?_⟩
  exact (crsEvaluate_composite_weighted_sum defaultWeights (3/10) (2/10) (2/10) (2/10)
    (1/10) emptyExtract ("q") ("r") ("c") _ rfl rfl rfl rfl rfl
    (crsEvaluate_defaultWeights emptyExtract ("q") ("r") ("c")) (by norm_num)).2.1

/-- One retrieval result row (`record.data()` in `retriever.py`): the entity
channel fills `entity`, the topic channel fills `topic`; both carry the
event's type and timestamp. -/
structure PastEvent where
  type : String
  timestamp : String
  entity : Option String
  topic : Option String
deriving Repr, DecidableEq

/-- The dedup key of `_merge_contexts`: `(item["type"], item["timestamp"])`. -/
def rowKey (r : PastEvent) : String × String :=
  (r.type, r.timestamp)

/-- The loop of `GraphRetriever._merge_contexts` (`retriever.py` lines 74-81):
`seen` starts empty; a row is appended iff its key was not seen before. -/
def mergeLoop (seen : Finset (String × String)) : List PastEvent → List PastEvent
  | [] => []
  | item :: rest =>
    if rowKey item ∈ seen then mergeLoop seen rest
    else item :: mergeLoop (insert (rowKey item) seen) rest

/-- Return value of `retrieve_context` / `_merge_contexts`. -/
structure MergedContext where
  past_events : List PastEvent
  entity_count : ℕ
  topic_count : ℕ
deriving Repr, DecidableEq

/-- `GraphRetriever._merge_contexts` (`retriever.py` lines 73-87): iterate
over `entity_ctx + topic_ctx`, keep first occurrence per key, and report the
two channel sizes. -/
def mergeContexts (entityCtx topicCtx : List PastEvent) : MergedContext :=
  { past_events := mergeLoop ∅ (entityCtx ++ topicCtx)
    entity_count := entityCtx.length
    topic_count := topicCtx.length }

/-- First-occurrence-wins deduplication on the (type, timestamp) key, stated
the way the spec describes the merge policy: keep the head, drop every later
row with the same key, recurse. -/
def dedupFirst : List PastEvent → List PastEvent
  | [] => []
  | x :: xs => x :: dedupFirst (xs.filter (fun y => rowKey y != rowKey x))
termination_by l => l.length
decreasing_by
  simp_wf
  exact Nat.lt_succ_of_le (List.length_filter_le _ _)

theorem mergeLoop_insert (k : String × String) (l : List PastEvent) :
    ∀ seen : Finset (String × String),
      mergeLoop (insert k seen) l =
        mergeLoop seen (l.filter (fun y => rowKey y != k)) := by
  induction l with
  | nil => intro seen; rfl
  | cons x xs ih =>
    intro seen
    by_cases hk : rowKey x = k
    · have h1 : rowKey x ∈ insert k seen := by simp [hk]
      have h2 : (rowKey x != k) = false := by simp [hk]
      simp only [mergeLoop, if_pos h1, List.filter_cons, h2, Bool.false_eq_true,
        if_false]
      exact ih seen
    · by_cases hs : rowKey x ∈ seen
      · have h1 : rowKey x ∈ insert k seen := Finset.mem_insert_of_mem hs
        have h2 : (rowKey x != k) = true := by simp [hk]
        simp only [mergeLoop, if_pos h1, List.filter_cons, h2, if_true,
          if_pos hs]
        exact ih seen
      · have h1 : rowKey x ∉ insert k seen := by
          simp [Finset.mem_insert, hk, hs]
        have h2 : (rowKey x != k) = true := by simp [hk]
        simp only [mergeLoop, if_neg h1, List.filter_cons, h2, if_true,
          if_neg hs]
        rw [Finset.Insert.comm]
        exact congrArg (x :: ·) (ih (insert (rowKey x) seen))

theorem mergeLoop_empty_eq_dedupFirst (l : List PastEvent) :
    mergeLoop ∅ l = dedupFirst l := by
  induction l using dedupFirst.induct with
  | case1 => simp [mergeLoop, dedupFirst]
  | case2 x xs ih =>
    have h1 : rowKey x ∉ (∅ : Finset (String × String)) := Finset.not_mem_empty _
    simp only [mergeLoop, if_neg h1, dedupFirst]
    rw [mergeLoop_insert, ih]

theorem find?_filter_of_imp {α : Type} {p q : α → Bool} (xs : List α)
    (h : ∀ y, p y = true → q y = true) :
    (xs.filter q).find? p = xs.find? p := by
  induction xs with
  | nil => rfl
  | cons z zs ih =>
    by_cases hq : q z = true
    · rw [List.filter_cons_of_pos hq]
      by_cases hp : p z = true
      · rw [List.find?_cons_of_pos _ hp, List.find?_cons_of_pos _ hp]
      · rw [List.find?_cons_of_neg _ hp, List.find?_cons_of_neg _ hp, ih]
    · have hp : ¬p z = true := fun hpz => hq (h z hpz)
      rw [List.filter_cons_of_neg hq, List.find?_cons_of_neg _ hp, ih]

theorem dedupFirst_subset (l : List PastEvent) : ∀ r ∈ dedupFirst l, r ∈ l := by
  induction l using dedupFirst.induct with
  | case1 => simp [dedupFirst]
  | case2 x xs ih =>
    intro r hr
    simp only [dedupFirst, List.mem_cons] at hr
    rcases hr with rfl | hr'
    · exact List.mem_cons_self _ _
    · exact List.mem_cons_of_mem _ (List.mem_of_mem_filter (ih r hr'))

theorem dedupFirst_find? (l : List PastEvent) :
    ∀ r ∈ dedupFirst l, l.find? (fun y => rowKey y == rowKey r) = some r := by
  induction l using dedupFirst.induct with
  | case1 => simp [dedupFirst]
  | case2 x xs ih =>
    intro r hr
    simp only [dedupFirst, List.mem_cons] at hr
    rcases hr with rfl | hr'
    · exact List.find?_cons_of_pos _ (by simp)
    · have hmemf : r ∈ xs.filter (fun y => rowKey y != rowKey x) :=
        dedupFirst_subset _ r hr'
    
      have hne : rowKey r ≠ rowKey x := by
        have h2 := (List.mem_filter.mp hmemf).2
        simpa using h2
      have hx : ¬(rowKey x == rowKey r) = true := by
        simp [Ne.symm hne]
      have hstep : List.find? (fun y => rowKey y == rowKey r) (x :: xs) =
          List.find? (fun y => rowKey y == rowKey r) xs :=
        List.find?_cons_of_neg _ hx
      rw [hstep]
      have hthis := ih r hr'
      rw [find?_filter_of_imp] at hthis
      · exact hthis
      · intro y hy
        have : rowKey y = rowKey r := by simpa using hy
        simp [this, hne]

theorem dedupFirst_keys_nodup (l : List PastEvent) :
    ((dedupFirst l).map rowKey).Nodup := by
  induction l using dedupFirst.induct with
  | case1 => simp [dedupFirst]
  | case2 x xs ih =>
    simp only [dedupFirst, List.map_cons, List.nodup_cons]
    refine ⟨fun hmem => ?_, ih⟩
    obtain ⟨r, hr, hkey⟩ := List.mem_map.mp hmem
    have hmemf := dedupFirst_subset _ r hr
    have hne : rowKey r ≠ rowKey x := by
      simpa using (List.mem_filter.mp hmemf).2
    exact hne hkey

theorem dedupFirst_covers (l : List PastEvent) :
    ∀ r ∈ l, ∃ s ∈ dedupFirst l, rowKey s = rowKey r := by
  induction l using dedupFirst.induct with
  | case1 => simp
  | case2 x xs ih =>
    intro r hr
    rcases List.mem_cons.mp hr with rfl | hr'
    · exact ⟨r, by simp [dedupFirst], rfl⟩
    · by_cases hk : rowKey r = rowKey x
      · exact ⟨x, by simp [dedupFirst], hk.symm⟩
      · have hmemf : r ∈ xs.filter (fun y => rowKey y != rowKey x) :=
          List.mem_filter.mpr ⟨hr', by simp [hk]⟩
        obtain ⟨s, hs, hkey⟩ := ih r hmemf
        refine ⟨s, ?_, hkey⟩
        simp only [dedupFirst, List.mem_cons]
        exact Or.inr hs

theorem dedupFirst_sublist (l : List PastEvent) : (dedupFirst l).Sublist l := by
  induction l using dedupFirst.induct with
  | case1 => simp [dedupFirst]
  | case2 x xs ih =>
    simp only [dedupFirst]
    exact List.Sublist.cons₂ x (ih.trans (List.filter_sublist _))

/-- C6: the merge concatenates entity-channel rows then topic-channel rows
and deduplicates on the (event type, timestamp) key with first occurrence
winning — so each kept row is the first row of the concatenation with its
key, kept rows keep their order, every input key survives, and a row whose
key also occurs in the entity channel is itself an entity-channel row (entity
beats topic). The returned entity_count and topic_count are the channel
sizes before deduplication. -/
theorem mergeContexts_spec (e t : List PastEvent) :
    (mergeContexts e t).entity_count = e.length ∧
    (mergeContexts e t).topic_count = t.length ∧
    (mergeContexts e t).past_events = dedupFirst (e ++ t) ∧
    ((mergeContexts e t).past_events.map rowKey).Nodup ∧
    (mergeContexts e t).past_events.Sublist (e ++ t) ∧
    (∀ r ∈ e ++ t, ∃ s ∈ (mergeContexts e t).past_events, rowKey s = rowKey r) ∧
    (∀ r ∈ (mergeContexts e t).past_events,
        (e ++ t).find? (fun y => rowKey y == rowKey r) = some r) ∧
    (∀ r ∈ (mergeContexts e t).past_events,
        (∃ y ∈ e, rowKey y = rowKey r) → r ∈ e) := by
  have hpe : (mergeContexts e t).past_events = dedupFirst (e ++ t) :=
    mergeLoop_empty_eq_dedupFirst _
  rw [mergeContexts] at hpe ⊢
  dsimp only at hpe ⊢
  rw [hpe]
  refine ⟨rfl, rfl, rfl, dedupFirst_keys_nodup _, dedupFirst_sublist _,
    dedupFirst_covers _, dedupFirst_find? _, fun r hr hy => ?_⟩
  obtain ⟨y, hym, hykey⟩ := hy
  have hfind := dedupFirst_find? _ r hr
  rw [List.find?_append] at hfind
  have hsome : (e.find? (fun z => rowKey z == rowKey r)).isSome :=
    List.find?_isSome.mpr ⟨y, hym, by simp [hykey]⟩
  obtain ⟨z, hz⟩ := Option.isSome_iff_exists.mp hsome
  rw [hz, Option.or_some] at hfind
  have hzr : z = r := Option.some.inj hfind
  subst hzr
  exact List.mem_of_find?_eq_some hz

/-- Concrete check of the merge policy at the spec's own example: an
entity-channel row and a topic-channel row with the same (type, timestamp)
merge to exactly the entity-channel row, while both counts stay 1. -/
theorem mergeContexts_example :
    mergeContexts
        [{ type := "Q", timestamp := "t1", entity := some "A", topic := none }]
        [{ type := "Q", timestamp := "t1", entity := none, topic := some "X" }] =
      { past_events := [{ type := "Q", timestamp := "t1", entity := some "A", topic := none }]
        entity_count := 1
        topic_count := 1 } := by
  decide

/-- Python `"\n".join(lines)`. -/
def joinLines : List String → String
  | [] => ""
  | [l] => l
  | l :: ls => l ++ "\n" ++ joinLines ls

/-- `_MAX_HISTORY_LENGTH = 5` in `baseline.py`. -/
def maxHistoryLength : ℕ := 5

/-- The process-wide `_USER_MEMORY` map of `baseline.py`: a `defaultdict`, so
an absent user reads as the empty history. Lists are oldest-first, matching
the deque's left-to-right order. -/
def UserMemory := String → List String

/-- `deque(maxlen=k).append(msg)`: add at the right; when the deque exceeds
`k` entries the oldest (leftmost) ones are discarded. -/
def dequeAppend (maxlen : ℕ) (buf : List String) (msg : String) : List String :=
  let b := buf ++ [msg]
  b.drop (b.length - maxlen)

/-- `add_user_message` (`baseline.py` lines 16-25): append into the calling
user's deque, leaving every other user's entry alone. -/
def addUserMessage (mem : UserMemory) (userId message : String) : UserMemory :=
  fun u =>
    if u = userId then dequeAppend maxHistoryLength (mem userId) message
    else mem u

/-- `build_baseline_context` (`baseline.py` lines 27-48). -/
def buildBaselineContext (mem : UserMemory) (userId : String) : String :=
  let history := mem userId
  if history.isEmpty then ""
  else joinLines ("Previous conversation:" :: history.map (fun msg => "- " ++ msg))

/-- The last `k` entries of a list (the suffix a `maxlen=k` deque retains). -/
def lastK (k : ℕ) (l : List String) : List String :=
  l.drop (l.length - k)

theorem lastK_eq_reverse_take (k : ℕ) (l : List String) :
    lastK k l = (l.reverse.take k).reverse := by
  rw [List.take_reverse, List.reverse_reverse]
  rfl

theorem lastK_append_lastK (k : ℕ) (x y : List String) :
    lastK k (lastK k x ++ y) = lastK k (x ++ y) := by
  simp only [lastK_eq_reverse_take]
  congr 1
  rw [List.reverse_append, List.reverse_append, List.reverse_reverse,
    List.take_append_eq_append_take, List.take_append_eq_append_take,
    List.take_take]
  congr 2
  omega

theorem foldl_dequeAppend_eq_lastK (ms : List String) :
    ∀ (L : List String) (m : String),
      (m :: ms).foldl (dequeAppend maxHistoryLength) L =
        lastK maxHistoryLength (L ++ m :: ms) := by
  induction ms with
  | nil =>
    intro L m
    simp only [List.foldl_cons, List.foldl_nil]
    rfl
  | cons m2 ms ih =>
    intro L m
    have hstep : (m :: m2 :: ms).foldl (dequeAppend maxHistoryLength) L =
        (m2 :: ms).foldl (dequeAppend maxHistoryLength)
          (dequeAppend maxHistoryLength L m) := rfl
    rw [hstep, ih]
    have hd : dequeAppend maxHistoryLength L m =
        lastK maxHistoryLength (L ++ [m]) := rfl
    rw [hd, lastK_append_lastK]
    congr 1
    simp

theorem foldl_addUserMessage_apply (uid : String) (ms : List String) :
    ∀ mem : UserMemory,
      (ms.foldl (fun m msg => addUserMessage m uid msg) mem) uid =
        ms.foldl (dequeAppend maxHistoryLength) (mem uid) ∧
      ∀ u, u ≠ uid → (ms.foldl (fun m msg => addUserMessage m uid msg) mem) u = mem u := by
  induction ms with
  | nil => intro mem; exact ⟨rfl, fun _ _ => rfl⟩
  | cons m ms ih =>
    intro mem
    constructor
    · have h1 := (ih (addUserMessage mem uid m)).1
      simp only [List.foldl_cons]
      rw [h1]
      congr 1
      simp [addUserMessage]
    · intro u hu
      have h2 := (ih (addUserMessage mem uid m)).2 u hu
      simp only [List.foldl_cons]
      rw [h2]
      simp [addUserMessage, hu]

/-- C7: appending K+1 = 6 messages for one user leaves that user's buffer
holding exactly the last K = 5 of them in their original (oldest-first)
order — whatever the user's buffer held before — and the buffer of every
other user is unchanged by those appends. -/
theorem buffer_six_appends_keep_last_five (mem : UserMemory) (uid : String)
    (m1 m2 m3 m4 m5 m6 : String) :
    ([m1, m2, m3, m4, m5, m6].foldl (fun m msg => addUserMessage m uid msg) mem) uid =
      [m2, m3, m4, m5, m6] ∧
    ∀ u, u ≠ uid →
      ([m1, m2, m3, m4, m5, m6].foldl (fun m msg => addUserMessage m uid msg) mem) u =
        mem u := by
  have h := foldl_addUserMessage_apply uid [m1, m2, m3, m4, m5, m6] mem
  refine ⟨?_, h.2⟩
  rw [h.1, foldl_dequeAppend_eq_lastK]
  unfold lastK maxHistoryLength
  have hlen : (mem uid ++ [m1, m2, m3, m4, m5, m6]).length - 5 =
      (mem uid).length + 1 := by
    simp [List.length_append]
  rw [hlen, List.drop_append]
  rfl

/-- Python `sep.join(parts)` for an arbitrary separator. -/
def joinWith (sep : String) : List String → String
  | [] => ""
  | [l] => l
  | l :: ls => l ++ sep ++ joinWith sep ls

/-- The memory lines built by `_format_graph_context` in `backend/main.py`
(lines 55-75): one line per past event whose `entity` field is truthy
(present and non-empty), then, when either count is positive, the count
summary line with its " and "-joined clauses. -/
def formatGraphContextLines (context : MergedContext) : List String :=
  let eventLines := context.past_events.filterMap (fun event =>
    match event.entity with
    | some entity =>
      if entity.isEmpty then none
      else some ("- Previously, the user mentioned the entity \"" ++ entity
        ++ "\" in a query.")
    | none => none)
  let countLines : List String :=
    if 0 < context.entity_count ∨ 0 < context.topic_count then
      let parts :=
        (if 0 < context.entity_count then
          [toString context.entity_count ++ " distinct entities"] else [])
        ++ (if 0 < context.topic_count then
          [toString context.topic_count ++ " topics"] else [])
      ["- The conversation includes " ++ joinWith (" and ") parts ++ "."]
    else []
  eventLines ++ countLines

/-- `_format_graph_context` (`backend/main.py` lines 50-77): the memory lines
joined with newlines — this is the `context_text` handed to the CRS
evaluator in graph mode. -/
def formatGraphContext (context : MergedContext) : String :=
  joinLines (formatGraphContextLines context)

/-- The memory lines built inside `build_prompt`
(`backend/rag/prompt_builder.py` lines 31-53), translated independently from
that file: one line per past event with a truthy entity, then the count
summary line. -/
def buildPromptMemoryLines (context : MergedContext) : List String :=
  let memoryLines := context.past_events.filterMap (fun event =>
    match event.entity with
    | some entity =>
      if entity.isEmpty then none
      else some ("- Previously, the user mentioned the entity \"" ++ entity
        ++ "\" in a query.")
    | none => none)
  let countLines : List String :=
    if 0 < context.entity_count ∨ 0 < context.topic_count then
      let parts :=
        (if 0 < context.entity_count then
          [toString context.entity_count ++ " distinct entities"] else [])
        ++ (if 0 < context.topic_count then
          [toString context.topic_count ++ " topics"] else [])
      ["- The conversation includes " ++ joinWith (" and ") parts ++ "."]
    else []
  memoryLines ++ countLines

/-- `build_prompt` (`backend/rag/prompt_builder.py` lines 9-64): a
"Memory Context:" header, the memory lines and a blank spacing line when
there are memory lines, then "User Query:" and the query, all joined with
newlines. -/
def buildPrompt (context : MergedContext) (query : String) : String :=
  let memoryLines := buildPromptMemoryLines context
  let sections :=
    (if memoryLines.isEmpty then []
     else ["Memory Context:"] ++ memoryLines ++ [""])
    ++ ["User Query:", query]
  joinLines sections

theorem joinLines_append (l₁ l₂ : List String) (h₁ : l₁ ≠ []) (h₂ : l₂ ≠ []) :
    joinLines (l₁ ++ l₂) = joinLines l₁ ++ "\n" ++ joinLines l₂ := by
  induction l₁ with
  | nil => exact absurd rfl h₁
  | cons a l₁ ih =>
    cases l₁ with
    | nil =>
      cases l₂ with
      | nil => exact absurd rfl h₂
      | cons b bs => simp [joinLines]
    | cons a2 rest =>
      have hne : (a2 :: rest : List String) ≠ [] := by simp
      have hstep : joinLines ((a :: a2 :: rest) ++ l₂) =
          a ++ "\n" ++ joinLines ((a2 :: rest) ++ l₂) := rfl
      rw [hstep, ih hne]
      simp [joinLines, String.append_assoc]

/-- C2: the context text handed to the CRS evaluator in graph mode is
character-for-character the memory-context text embedded in the generation
prompt built from the same merged context: the two line-building call sites
compute identical lines, and `build_prompt` embeds exactly
`formatGraphContext context` between its "Memory Context:" header and the
blank spacing line (or contains no memory block at all exactly when the
formatter output is empty). -/
theorem graph_context_text_single_source (context : MergedContext)
    (query : String) :
    formatGraphContextLines context = buildPromptMemoryLines context ∧
    formatGraphContext context = joinLines (buildPromptMemoryLines context) ∧
    (buildPromptMemoryLines context = [] →
      buildPrompt context query = "User Query:" ++ "\n" ++ query) ∧
    (buildPromptMemoryLines context ≠ [] →
      buildPrompt context query =
        "Memory Context:" ++ "\n" ++ formatGraphContext context ++ "\n" ++ "\n"
          ++ ("User Query:" ++ "\n" ++ query)) := by
  have hlines : formatGraphContextLines context = buildPromptMemoryLines context := rfl
  refine ⟨hlines, by rw [formatGraphContext, hlines], fun hempty => ?_, fun hne => ?_⟩
  · simp only [buildPrompt, hempty, List.isEmpty_nil, if_true, List.nil_append]
    rfl
  · have hiE : (buildPromptMemoryLines context).isEmpty = false := by
      simpa [List.isEmpty_iff] using hne
    simp only [buildPrompt, hiE, Bool.false_eq_true, if_false]
    rw [joinLines_append (["Memory Context:"] ++ buildPromptMemoryLines context ++ [""])
      (["User Query:", query]) (by simp) (by simp)]
    rw [joinLines_append (["Memory Context:"] ++ buildPromptMemoryLines context)
      ([""]) (by simp) (by simp)]
    rw [joinLines_append (["Memory Context:"]) (buildPromptMemoryLines context)
      (by simp) hne]
    rw [formatGraphContext, hlines]
    have h1 : joinLines ["Memory Context:"] = "Memory Context:" := rfl
    have h2 : joinLines [""] = "" := rfl
    have h3 : joinLines ["User Query:", query] = "User Query:" ++ "\n" ++ query := rfl
    rw [h1, h2, h3, String.append_empty]

/-- The two values of `ChatRequest.mode` in `backend/main.py`. -/
inductive ChatMode
  | graph
  | baseline
deriving Repr, DecidableEq

/-- `ChatResponse` in `backend/main.py` (lines 38-41): `crs_scores` is
Optional and defaults to `None`. -/
structure ChatResponse where
  response : String
  context_used : List String
  crs_scores : Option CRSScores

/-- The `/chat` handler (`backend/main.py` lines 79-161). External effects are
passed in: `extract` is `extract_entities`, `generate` is the LLM call, and
`retrieveResult` is the outcome of the graph-mode try block around retriever
construction and `retrieve_context` (`Except.error` models a raised
exception). The except branch at lines 118-123 returns the fixed
unavailability response early — before the LLM call and the CRS evaluation.
The graph write (lines 112-117) sits in an inner try whose failures are only
logged, so it cannot affect the returned value and is not modelled as part of
the response. The module-level `crs_evaluator = CRSEvaluator()` carries the
default weights. -/
def chat (mode : ChatMode) (userId message : String)
    (extract : String → Extraction)
    (retrieveResult : Except String MergedContext)
    (generate : String → String)
    (mem : UserMemory) : ChatResponse × UserMemory :=
  let extraction := extract message
  let entities := extraction.entities
  let topics := extraction.topics
  match mode with
  | ChatMode.graph =>
    match retrieveResult with
    | Except.error _ =>
      ({ response := "The system is temporarily unavailable due to a graph error."
         context_used := []
         crs_scores := none }, mem)
    | Except.ok graphContext =>
      let llmResponse := generate (buildPrompt graphContext message)
      let contextText := formatGraphContext graphContext
      let crs := crsEvaluate defaultWeights extract message llmResponse contextText
      ({ response := llmResponse
         context_used := entities ++ topics
         crs_scores := crs }, mem)
  | ChatMode.baseline =>
    let mem2 := addUserMessage mem userId message
    let baselineContext := buildBaselineContext mem2 userId
    let prompt := baselineContext ++ "\n\nUser Query:\n" ++ message
    let llmResponse := generate prompt
    let crs := crsEvaluate defaultWeights extract message llmResponse baselineContext
    ({ response := llmResponse
       context_used := entities ++ topics
       crs_scores := crs }, mem2)

/-- C1 counterexample: at a concrete failing retrieval in graph mode, the
turn produces NO score record (`crs_scores = none`) and the response is the
canned unavailability message, not a generated reply over an empty merged
context — refuting "the response is still generated and a score record is
still produced". -/
theorem chat_graph_failure_counterexample :
    (chat ChatMode.graph ("u1") ("hello") emptyExtract
        (Except.error ("connection refused")) (fun _ => "generated reply")
        (fun _ => ([] : List String))).1.crs_scores = none ∧
    (chat ChatMode.graph ("u1") ("hello") emptyExtract
        (Except.error ("connection refused")) (fun _ => "generated reply")
        (fun _ => ([] : List String))).1.response =
      "The system is temporarily unavailable due to a graph error." ∧
    (chat ChatMode.graph ("u1") ("hello") emptyExtract
        (Except.error ("connection refused")) (fun _ => "generated reply")
        (fun _ => ([] : List String))).1.response ≠ "generated reply" := by
  refine ⟨rfl, rfl, ?_⟩
  intro h
  simp only [chat] at h
  exact absurd h (by decide)

/-- C1 (amended): whenever graph retrieval fails, the chat turn still
completes without raising, but it does NOT substitute an empty merged
context: it returns the fixed unavailability message with an empty
context_used list and no CRS score record, generating nothing and leaving
the buffer state untouched. -/
theorem chat_graph_failure_behavior (userId message : String)
    (extract : String → Extraction) (err : String)
    (generate : String → String) (mem : UserMemory) :
    chat ChatMode.graph userId message extract (Except.error err) generate mem =
      ({ response := "The system is temporarily unavailable due to a graph error."
         context_used := []
         crs_scores := none }, mem) := rfl

/-- An error raised by the Python runtime itself, as opposed to a storage
failure. -/
inductive PyErr
  | attributeError
deriving Repr, DecidableEq

/-- An Event node: driver-assigned id, `type` tag, ISO timestamp
(`graph.py` `create_event`). -/
structure GraphEvent where
  id : ℕ
  eventType : String
  timestamp : String
deriving Repr, DecidableEq

/-- The graph store's state: node sets keyed by their MERGE keys, edge sets,
and the driver's id counter. -/
structure GraphState where
  users : Finset String
  events : List GraphEvent
  nextEventId : ℕ
  entities : Finset String
  topics : Finset String
  mentions : Finset (ℕ × String)
  askedAbout : Finset (ℕ × String)
  prevContext : Finset (ℕ × ℕ)
deriving DecidableEq

/-- `get_or_create_user` (`graph.py` lines 14-20): `MERGE (u:User {id:
$user_id})`, an idempotent upsert. (The query string in the source starts
with a stray quote character — `""""` opens the literal with `"` as its first
character — which a real Neo4j server would reject; the upsert effect
modelled here is the documented intent.) -/
def getOrCreateUser (s : GraphState) (userId : String) : GraphState :=
  { s with users := insert userId s.users }

/-- `create_event` (`graph.py` lines 22-36): CREATE a fresh Event node and
return it; its driver-assigned id is fresh. -/
def createEvent (s : GraphState) (eventType timestamp : String) :
    GraphState × ℕ :=
  ({ s with
      events := s.events ++
        [{ id := s.nextEventId, eventType := eventType, timestamp := timestamp }]
      nextEventId := s.nextEventId + 1 },
    s.nextEventId)

/-- `get_or_create_entity` (`graph.py` lines 38-44): MERGE by name. -/
def getOrCreateEntity (s : GraphState) (name : String) : GraphState :=
  { s with entities := insert name s.entities }

/-- `get_or_create_topic` (`graph.py` lines 46-52): MERGE by name. -/
def getOrCreateTopic (s : GraphState) (name : String) : GraphState :=
  { s with topics := insert name s.topics }

/-- `link_event_entity` (`graph.py` lines 54-65): MERGE a MENTIONS edge. -/
def linkEventEntity (s : GraphState) (eventId : ℕ) (name : String) : GraphState :=
  { s with mentions := insert (eventId, name) s.mentions }

/-- `link_event_topic` (`graph.py` lines 67-78): MERGE an ASKED_ABOUT edge. -/
def linkEventTopic (s : GraphState) (eventId : ℕ) (name : String) : GraphState :=
  { s with askedAbout := insert (eventId, name) s.askedAbout }

/-- `link_previous_event` (`graph.py` lines 80-94): no-op when no previous
id is supplied, else MERGE a PREVIOUS_CONTEXT edge. -/
def linkPreviousEvent (s : GraphState) (currentEventId : ℕ)
    (previousEventId : Option ℕ) : GraphState :=
  match previousEventId with
  | none => s
  | some p => { s with prevContext := insert (currentEventId, p) s.prevContext }

/-- `store_interaction` (`graph.py` lines 96-121), the write operation that
`main.py` reaches for (calling it `write_interaction`, a method `GraphMemory`
does not define either). After `get_or_create_user` and `create_event`, the
source executes `self.link_user_event(user_id, event_id)` — but the
`GraphMemory` class defines no method named `link_user_event`, so Python
raises `AttributeError` at that statement on every call; the entity/topic
linking, the previous-event chaining and the `return event_id` below it are
unreachable. -/
def storeInteraction (s : GraphState) (userId eventType timestamp : String)
    (entities topics : List String) (previousEventId : Option ℕ) :
    Except PyErr (GraphState × ℕ) :=
  let s1 := getOrCreateUser s userId
  let sAndId := createEvent s1 eventType timestamp
  let _s2 := sAndId.1
  let _eventId := sAndId.2
  Except.error PyErr.attributeError

/-- C3 (code-bug evidence): every call of the write operation raises
`AttributeError` (undefined method `link_user_event`) instead of creating a
linked event and returning its identifier; in particular no call ever
returns an event id to the caller. -/
theorem storeInteraction_always_raises (s : GraphState)
    (userId eventType timestamp : String) (entities topics : List String)
    (previousEventId : Option ℕ) :
    storeInteraction s userId eventType timestamp entities topics
        previousEventId = Except.error PyErr.attributeError ∧
    ∀ (s' : GraphState) (eventId : ℕ),
      storeInteraction s userId eventType timestamp entities topics
          previousEventId ≠ Except.ok (s', eventId) := by
  exact ⟨rfl, fun s' eventId h => Except.noConfusion h⟩
